import Mathlib

/-!
Verification of the 2K game-tracker core (`game_tracker.py`): the streaming
state machine that turns per-frame OCR readings into a monotonic event log,
the post-processing summary builder, and the clip-window computation.

The OCR layer itself (EasyOCR / Tesseract calls) is external capability; a
`FrameReading` below is the record of values it produced for one sampled
frame, together with the frame classifier's liveness verdict.  Timestamps
(Python floats) are embedded as rationals; Python ints are `Int`.
-/

set_option maxHeartbeats 1000000

namespace GameTrackerModel

/-- Data extracted from a single frame (`FrameData` in the source), plus the
`is_gameplay_frame` verdict for that frame.  `none` / `""` are the unknown
sentinels produced when a region could not be read. -/
structure FrameReading where
  timestamp_sec : ℚ := 0
  is_live : Bool := true
  left_score : Option Int := none
  right_score : Option Int := none
  clock : String := ""
  quarter : String := ""
  player_pts : Option Int := none
  player_reb : Option Int := none
  player_ast : Option Int := none
  player_fg : String := ""
deriving DecidableEq, Repr

/-- A detected game event (`GameEvent` in the source). -/
structure GameEvent where
  timestamp_sec : ℚ
  video_time : String
  game_clock : String
  quarter : String
  event_type : String
  details : String
  left_score : Int := 0
  right_score : Int := 0
deriving DecidableEq, Repr

/-- Score tracking for a single quarter (`QuarterScore` in the source);
scores are (left, right) pairs. -/
structure QuarterScore where
  quarter : String
  start_score : Int × Int := (0, 0)
  end_score : Option (Int × Int) := none
deriving DecidableEq, Repr

/-- One appended entry of `tracker.player_stats_history`. -/
structure PlayerStat where
  timestamp_sec : ℚ
  pts : Int
  reb : Option Int
  ast : Option Int
  fg : String
deriving DecidableEq, Repr

/-- Tracker state across frames (`GameTracker` in the source). -/
structure GameTracker where
  events : List GameEvent := []
  last_left_score : Int := 0
  last_right_score : Int := 0
  last_quarter : String := "1st"
  frame_count : Nat := 0
  errors : Nat := 0
  quarter_scores : List QuarterScore := []
  player_stats_history : List PlayerStat := []
deriving DecidableEq, Repr

/-- The freshly initialized tracker: all dataclass defaults. -/
def initTracker : GameTracker := {}

/-- The recognized quarter labels (`valid_quarters` in `process_frame`). -/
def validQuarters : List String := ["1st", "2nd", "3rd", "4th", "OT"]

/-- Python truthiness-based `a or b` on strings: the empty string is falsy. -/
def pyOr (a b : String) : String := if a = "" then b else a

/-- Python `f"{n:02d}"` for the values that occur here (non-negative). -/
def pad2 (n : Int) : String := if 0 ≤ n ∧ n < 10 then "0" ++ toString n else toString n

/-- Python `f"{int(ts // 60)}:{int(ts % 60):02d}"` — the MM:SS video time label. -/
def videoTime (ts : ℚ) : String :=
  toString (Rat.floor (ts / 60)) ++ ":" ++ pad2 (Rat.floor (ts - 60 * (Rat.floor (ts / 60) : ℚ)))

/-- Python `{1: "FT", 2: "2PT", 3: "3PT", 4: "3PT+FT"}.get(d, f"+{d}")` — the
shot type lookup with its defensive `+N` default, as in the source. -/
def shotLabel (d : Int) : String :=
  if d = 1 then "FT"
  else if d = 2 then "2PT"
  else if d = 3 then "3PT"
  else if d = 4 then "3PT+FT"
  else "+" ++ toString d

/-- The spec's fixed shot-type table on the domain {1,2,3,4}. -/
def shotTypeTable (d : Int) : String :=
  if d = 1 then "FT"
  else if d = 2 then "2PT"
  else if d = 3 then "3PT"
  else "3PT+FT"

/-- Constructor mirroring the `GameEvent(...)` call sites of `process_frame`:
`video_time` is always computed from the timestamp. -/
def mkEvent (ts : ℚ) (clock q ty det : String) (l r : Int) : GameEvent :=
  { timestamp_sec := ts, video_time := videoTime ts, game_clock := clock,
    quarter := q, event_type := ty, details := det, left_score := l, right_score := r }

/-- Python `tracker.quarter_scores[-1].end_score = [..]` — unconditionally
stamp the last record's end score (the quarter-change close-out). -/
def setEndAlways (sc : Int × Int) : List QuarterScore → List QuarterScore
  | [] => []
  | [q] => [{ q with end_score := some sc }]
  | q :: q' :: qs => q :: setEndAlways sc (q' :: qs)

/-- Stamp the last record's end score only when it is still `none` (the
summary builder's close-out). -/
def setEndIfOpen (sc : Int × Int) : List QuarterScore → List QuarterScore
  | [] => []
  | [q] => [if q.end_score = none then { q with end_score := some sc } else q]
  | q :: q' :: qs => q :: setEndIfOpen sc (q' :: qs)

/-- Value `current_left`: the reading's left score when present, else the
last accepted left score (`process_frame` line 390). -/
def effLeft (t : GameTracker) (r : FrameReading) : Int :=
  Option.getD r.left_score t.last_left_score

/-- Value `current_right` (`process_frame` line 391). -/
def effRight (t : GameTracker) (r : FrameReading) : Int :=
  Option.getD r.right_score t.last_right_score

/-- Value `left_diff = current_left - tracker.last_left_score`. -/
def ldiff (t : GameTracker) (r : FrameReading) : Int := effLeft t r - t.last_left_score

/-- Value `right_diff = current_right - tracker.last_right_score`. -/
def rdiff (t : GameTracker) (r : FrameReading) : Int := effRight t r - t.last_right_score

/-- Details string of a `score_left` event. -/
def leftDetails (t : GameTracker) (r : FrameReading) : String :=
  "Left scored " ++ shotLabel (ldiff t r) ++ " (" ++ toString t.last_left_score
    ++ "->" ++ toString (effLeft t r) ++ ")"

/-- Details string of a `score_right` event. -/
def rightDetails (t : GameTracker) (r : FrameReading) : String :=
  "Right scored " ++ shotLabel (rdiff t r) ++ " (" ++ toString t.last_right_score
    ++ "->" ++ toString (effRight t r) ++ ")"

/-- Details string of a `score_jump` event. -/
def jumpDetails (t : GameTracker) (r : FrameReading) : String :=
  "Score jump (missed window): " ++ toString t.last_left_score ++ "-"
    ++ toString t.last_right_score ++ " -> " ++ toString (effLeft t r) ++ "-"
    ++ toString (effRight t r)

/-- The `read_stats` bookkeeping of `process_frame`: append to
`player_stats_history` when a player points value was read. -/
def statsStep (t : GameTracker) (r : FrameReading) : GameTracker :=
  match r.player_pts with
  | some p =>
      { t with player_stats_history := t.player_stats_history ++
          [{ timestamp_sec := r.timestamp_sec, pts := p, reb := r.player_reb,
             ast := r.player_ast, fg := r.player_fg }] }
  | none => t

/-- Quarter change detection (`process_frame` lines 353-378): when the
reading's quarter is recognized, differs from the last accepted quarter, and
the last accepted quarter is itself recognized, close the open quarter
record, open a new one, and emit a `quarter_change` event. -/
def quarterChangeStep (t : GameTracker) (r : FrameReading) : GameTracker :=
  if r.quarter ∈ validQuarters ∧ r.quarter ≠ t.last_quarter ∧ t.last_quarter ∈ validQuarters then
    { t with
      quarter_scores :=
        setEndAlways (t.last_left_score, t.last_right_score) t.quarter_scores ++
          [{ quarter := r.quarter,
             start_score := (t.last_left_score, t.last_right_score), end_score := none }],
      events := t.events ++
        [mkEvent r.timestamp_sec r.clock r.quarter ("quarter_change")
          ("Quarter: " ++ t.last_quarter ++ " -> " ++ r.quarter)
          t.last_left_score t.last_right_score] }
  else t

/-- Commit of the recognized quarter (`process_frame` lines 380-387): open the
very first quarter record if none exists, and update `last_quarter`. -/
def quarterCommitStep (t : GameTracker) (r : FrameReading) : GameTracker :=
  if r.quarter ∈ validQuarters then
    if t.quarter_scores = [] then
      { t with
        quarter_scores :=
          [{ quarter := r.quarter,
             start_score := (t.last_left_score, t.last_right_score), end_score := none }],
        last_quarter := r.quarter }
    else { t with last_quarter := r.quarter }
  else t

/-- Score change detection (`process_frame` lines 389-453): the three-tier
delta policy over the effective score pair. -/
def scoreStep (t : GameTracker) (r : FrameReading) : GameTracker :=
  if effLeft t r ≠ t.last_left_score ∨ effRight t r ≠ t.last_right_score then
    if effLeft t r < 0 ∨ 99 < effLeft t r ∨ effRight t r < 0 ∨ 99 < effRight t r then
      { t with errors := t.errors + 1 }
    else if ldiff t r < 0 ∨ rdiff t r < 0 then
      { t with errors := t.errors + 1 }
    else if ldiff t r ≤ 4 ∧ rdiff t r ≤ 4 ∧ (0 < ldiff t r ∨ 0 < rdiff t r) then
      { t with
        events := t.events ++
          ((if 0 < ldiff t r then
              [mkEvent r.timestamp_sec r.clock (pyOr r.quarter t.last_quarter)
                ("score_left") (leftDetails t r) (effLeft t r) (effRight t r)]
            else []) ++
           (if 0 < rdiff t r then
              [mkEvent r.timestamp_sec r.clock (pyOr r.quarter t.last_quarter)
                ("score_right") (rightDetails t r) (effLeft t r) (effRight t r)]
            else [])),
        last_left_score := effLeft t r, last_right_score := effRight t r }
    else if (ldiff t r = 0 ∨ (0 < ldiff t r ∧ ldiff t r ≤ 15)) ∧
            (rdiff t r = 0 ∨ (0 < rdiff t r ∧ rdiff t r ≤ 15)) ∧
            (0 < ldiff t r ∨ 0 < rdiff t r) then
      { t with
        events := t.events ++
          [mkEvent r.timestamp_sec r.clock (pyOr r.quarter t.last_quarter)
            ("score_jump") (jumpDetails t r) (effLeft t r) (effRight t r)],
        last_left_score := effLeft t r, last_right_score := effRight t r }
    else { t with errors := t.errors + 1 }
  else t

/-- Python `tracker.frame_count += 1`. -/
def bumpFrame (t : GameTracker) : GameTracker := { t with frame_count := t.frame_count + 1 }

/-- Processing of one delivered (live) reading: stats bookkeeping, quarter
transition handling, score transition handling, frame counter. -/
def trackFrame (t : GameTracker) (r : FrameReading) : GameTracker :=
  bumpFrame (scoreStep (quarterCommitStep (quarterChangeStep (statsStep t r) r) r) r)

/-- Function `process_frame`: non-live frames (per the classifier) only
advance the frame counter; live frames run the full tracking step. -/
def processFrame (t : GameTracker) (r : FrameReading) : GameTracker :=
  if r.is_live then trackFrame t r else bumpFrame t

/-- Sequential processing of a stream of sampled readings. -/
def runTracker (t : GameTracker) (rs : List FrameReading) : GameTracker :=
  List.foldl processFrame t rs

/-! ### Summary builder (`process_video_to_summary`) -/

/-- Does `pat` start the character list `s` (helper for Python's `in`). -/
def startsWithL : List Char → List Char → Bool
  | _, [] => true
  | [], _ :: _ => false
  | c :: cs, p :: ps => c = p && startsWithL cs ps

/-- Substring occurrence on character lists (helper for Python's `in`). -/
def containsL : List Char → List Char → Bool
  | [], p => p.isEmpty
  | c :: cs, p => startsWithL (c :: cs) p || containsL cs p

/-- Python's `pat in s` substring test on strings. -/
def strContains (s pat : String) : Bool := containsL s.toList pat.toList

/-- One row of the `quarter_scores` summary output. -/
structure QuarterScoreOut where
  quarter : String
  start_score : Int × Int
  end_score : Int × Int
  left_pts : Int
  right_pts : Int
deriving DecidableEq, Repr

/-- Per-side shot-type counts: `{"FT": _, "2PT": _, "3PT": _, "3PT+FT": _, "jump": _}`. -/
structure ShotCounts where
  ft : Nat := 0
  p2 : Nat := 0
  p3 : Nat := 0
  p3ft : Nat := 0
  jump : Nat := 0
deriving DecidableEq, Repr

/-- The two-sided shot-type breakdown. -/
structure ShotBreakdown where
  left : ShotCounts := {}
  right : ShotCounts := {}
deriving DecidableEq, Repr

/-- A recorded scoring run (6+ unanswered points). -/
structure ScoringRun where
  team : String
  points : Int
  start_time : Option String
  end_time : String
deriving DecidableEq, Repr

/-- The `player_final_stats` summary output. -/
structure PlayerFinal where
  pts : Option Int := none
  reb : Option Int := none
  ast : Option Int := none
  fg : String := ""
deriving DecidableEq, Repr

/-- The summary dictionary returned by `process_video_to_summary`. -/
structure Summary where
  quarter_scores : List QuarterScoreOut
  shot_type_breakdown : ShotBreakdown
  scoring_runs : List ScoringRun
  player_final_stats : PlayerFinal
deriving DecidableEq, Repr

/-- The first key of `("FT", "2PT", "3PT", "3PT+FT")` occurring as a substring
of the details string — the `for key ...: if key in ev.details: ...; break`
loop of the shot-type tally. -/
def shotBucket (details : String) : Option String :=
  if strContains details ("FT") then some ("FT")
  else if strContains details ("2PT") then some ("2PT")
  else if strContains details ("3PT") then some ("3PT")
  else if strContains details ("3PT+FT") then some ("3PT+FT")
  else none

/-- Python `shot_breakdown[side][key] += 1`. -/
def bumpShot (c : ShotCounts) (k : String) : ShotCounts :=
  if k = "FT" then { c with ft := c.ft + 1 }
  else if k = "2PT" then { c with p2 := c.p2 + 1 }
  else if k = "3PT" then { c with p3 := c.p3 + 1 }
  else if k = "3PT+FT" then { c with p3ft := c.p3ft + 1 }
  else c

/-- One event's contribution to the shot-type breakdown. -/
def tallyStep (b : ShotBreakdown) (ev : GameEvent) : ShotBreakdown :=
  if ev.event_type = "score_left" then
    match shotBucket ev.details with
    | some k => { b with left := bumpShot b.left k }
    | none => b
  else if ev.event_type = "score_right" then
    match shotBucket ev.details with
    | some k => { b with right := bumpShot b.right k }
    | none => b
  else if ev.event_type = "score_jump" then
    { b with left := { b.left with jump := b.left.jump + 1 },
             right := { b.right with jump := b.right.jump + 1 } }
  else b

/-- The shot-type breakdown over the whole event list. -/
def tallyShots (evs : List GameEvent) : ShotBreakdown :=
  List.foldl tallyStep {} evs

/-- Loop state of the scoring-run walk. -/
structure RunAcc where
  run_team : Option String := none
  run_start_pts : Int × Int := (0, 0)
  run_start_time : Option String := none
  run_opp_pts : Int := 0
  runs : List ScoringRun := []
deriving DecidableEq, Repr

/-- One iteration of the scoring-run walk over the event list. -/
def runStep (acc : RunAcc) (ev : GameEvent) : RunAcc :=
  if ev.event_type = "score_left" then
    if acc.run_team ≠ some "left" then
      { run_team := some ("left"), run_start_pts := (ev.left_score, ev.right_score),
        run_start_time := some ev.video_time, run_opp_pts := 0,
        runs :=
          if acc.run_team = some "right" ∧ acc.run_opp_pts = 0 ∧
              6 ≤ ev.right_score - acc.run_start_pts.2 then
            acc.runs ++ [{ team := "right", points := ev.right_score - acc.run_start_pts.2,
                           start_time := acc.run_start_time, end_time := ev.video_time }]
          else acc.runs }
    else acc
  else if ev.event_type = "score_right" then
    if acc.run_team ≠ some "right" then
      { run_team := some ("right"), run_start_pts := (ev.left_score, ev.right_score),
        run_start_time := some ev.video_time, run_opp_pts := 0,
        runs :=
          if acc.run_team = some "left" ∧ acc.run_opp_pts = 0 ∧
              6 ≤ ev.left_score - acc.run_start_pts.1 then
            acc.runs ++ [{ team := "left", points := ev.left_score - acc.run_start_pts.1,
                           start_time := acc.run_start_time, end_time := ev.video_time }]
          else acc.runs }
    else acc
  else if ev.event_type = "score_jump" then
    { acc with run_team := none }
  else acc

/-- Scoring runs detected over the whole event list (note: a run still open
when the list ends is never recorded — the loop has no final flush). -/
def scoringRuns (evs : List GameEvent) : List ScoringRun :=
  (List.foldl runStep {} evs).runs

/-- Output `player_final_stats`: last entry of the stats history, if any. -/
def playerFinal (hist : List PlayerStat) : PlayerFinal :=
  match hist.getLast? with
  | some last => { pts := some last.pts, reb := last.reb, ast := last.ast, fg := last.fg }
  | none => {}

/-- The `quarter_scores` rows of the summary: `end_score or [last scores]`. -/
def quarterOut (t : GameTracker) : List QuarterScoreOut :=
  t.quarter_scores.map fun qs =>
    { quarter := qs.quarter, start_score := qs.start_score,
      end_score := qs.end_score.getD (t.last_left_score, t.last_right_score),
      left_pts := (qs.end_score.getD (t.last_left_score, t.last_right_score)).1 - qs.start_score.1,
      right_pts := (qs.end_score.getD (t.last_left_score, t.last_right_score)).2 - qs.start_score.2 }

/-- The in-place close-out performed at the top of `process_video_to_summary`:
stamp the last quarter record's end score if it is still open. -/
def closeQuarters (t : GameTracker) : GameTracker :=
  { t with quarter_scores :=
      setEndIfOpen (t.last_left_score, t.last_right_score) t.quarter_scores }

/-- The summary value computed from the (closed-out) tracker state. -/
def buildSummary (t : GameTracker) : Summary :=
  { quarter_scores := quarterOut t,
    shot_type_breakdown := tallyShots t.events,
    scoring_runs := scoringRuns t.events,
    player_final_stats := playerFinal t.player_stats_history }

/-- Function `process_video_to_summary`: returns the summary together with
the tracker state as it stands afterwards (the function mutates its
argument's last open quarter record before reading from it). -/
def processVideoToSummary (t : GameTracker) : Summary × GameTracker :=
  (buildSummary (closeQuarters t), closeQuarters t)

/-! ### Clip extraction (`extract_clip`) -/

/-- Python `start = max(0.0, timestamp_sec - before_sec)` — the seek
argument passed to the extraction tool. -/
def clipStart (ts before : ℚ) : ℚ := if ts - before ≤ 0 then 0 else ts - before

/-- Python `duration = before_sec + after_sec` — the bounded-duration
argument passed to the extraction tool. -/
def clipDuration (before after : ℚ) : ℚ := before + after

/-- The time window of the source video covered by the extracted clip: the
stream copy starts at the seek position and lasts for the given duration. -/
def clipWindow (ts before after : ℚ) : ℚ × ℚ :=
  (clipStart ts before, clipStart ts before + clipDuration before after)

/-- The tracker state invariant: accepted scores lie in [0, 99] and the last
accepted quarter is a recognized label. -/
def StateOK (t : GameTracker) : Prop :=
  0 ≤ t.last_left_score ∧ t.last_left_score ≤ 99 ∧
  0 ≤ t.last_right_score ∧ t.last_right_score ≤ 99 ∧
  t.last_quarter ∈ validQuarters

/-- Componentwise order on the score snapshots carried by two events. -/
def scoreRel (e e' : GameEvent) : Prop :=
  e.left_score ≤ e'.left_score ∧ e.right_score ≤ e'.right_score

/-- Timestamp order on two events. -/
def tsRel (e e' : GameEvent) : Prop := e.timestamp_sec ≤ e'.timestamp_sec

/-- Score snapshots and timestamps both ordered. -/
def fullRel (e e' : GameEvent) : Prop :=
  e.left_score ≤ e'.left_score ∧ e.right_score ≤ e'.right_score ∧
  e.timestamp_sec ≤ e'.timestamp_sec

/-! ### Concrete streams and states used in the scenario theorems -/

/-- A live reading with the given timestamp, score pair and quarter label. -/
def mkReading (ts : ℚ) (l r : Int) (q : String) : FrameReading :=
  { timestamp_sec := ts, is_live := true, left_score := some l, right_score := some r,
    quarter := q }

/-- The synthetic 10-sample stream of the end-to-end scenario: scores
0-0,0-0,2-0,2-0,2-3,2-3,5-3,5-3,5-3,5-6, quarter constant `1st`, sampled
every 2 seconds. -/
def c2Readings : List FrameReading :=
  [mkReading 0 0 0 ("1st"), mkReading 2 0 0 ("1st"), mkReading 4 2 0 ("1st"),
   mkReading 6 2 0 ("1st"), mkReading 8 2 3 ("1st"), mkReading 10 2 3 ("1st"),
   mkReading 12 5 3 ("1st"), mkReading 14 5 3 ("1st"), mkReading 16 5 3 ("1st"),
   mkReading 18 5 6 ("1st")]

/-- A two-sample stream with strictly increasing timestamps. -/
def w1Readings : List FrameReading :=
  [mkReading 0 2 0 ("1st"), mkReading 2 2 3 ("1st")]

/-- A reading with an implausible left jump (0 to 20) that also carries a
quarter transition `1st -> 2nd`. -/
def c3Reading : FrameReading := mkReading 0 20 0 ("2nd")

/-- A reading with an implausible left jump and no quarter transition. -/
def c3wReading : FrameReading := mkReading 0 20 0 ("1st")

/-- Left scores +2, +2, +3 with no right-side scoring in between. -/
def c4Readings : List FrameReading :=
  [mkReading 0 2 0 ("1st"), mkReading 2 4 0 ("1st"), mkReading 4 7 0 ("1st")]

/-- The same left run followed by a right basket (which is what makes the
scoring-run walk examine the left run at all). -/
def c4FlushReadings : List FrameReading := c4Readings ++ [mkReading 6 7 2 ("1st")]

/-- The left run with a right +2 inserted between the left events. -/
def c4InterruptReadings : List FrameReading :=
  [mkReading 0 2 0 ("1st"), mkReading 2 4 0 ("1st"), mkReading 4 4 2 ("1st"),
   mkReading 6 7 2 ("1st")]

/-- A single delta-4 left scoring reading (3PT+FT). -/
def c7Reading : FrameReading := mkReading 0 4 0 ("1st")

/-- A single delta-2 left scoring reading. -/
def c5Reading : FrameReading := mkReading 0 2 0 ("1st")

/-- A first reading of quarter `1st` with no score change. -/
def c6First : FrameReading := mkReading 0 0 0 ("1st")

/-- A follow-up reading of quarter `2nd` with no score change. -/
def c6Second : FrameReading := mkReading 2 0 0 ("2nd")

/-- A finished tracker state with one still-open quarter record. -/
def c8State : GameTracker :=
  { initTracker with
      last_left_score := 2,
      quarter_scores := [{ quarter := "1st", start_score := (0, 0), end_score := none }] }

/-! ## Theorems -/

/-! ### Field-preservation lemmas for the per-frame sub-steps -/

@[simp] lemma statsStep_events (t : GameTracker) (r : FrameReading) :
    (statsStep t r).events = t.events := by
  unfold statsStep; cases r.player_pts <;> rfl

@[simp] lemma statsStep_last_left (t : GameTracker) (r : FrameReading) :
    (statsStep t r).last_left_score = t.last_left_score := by
  unfold statsStep; cases r.player_pts <;> rfl

@[simp] lemma statsStep_last_right (t : GameTracker) (r : FrameReading) :
    (statsStep t r).last_right_score = t.last_right_score := by
  unfold statsStep; cases r.player_pts <;> rfl

@[simp] lemma statsStep_last_quarter (t : GameTracker) (r : FrameReading) :
    (statsStep t r).last_quarter = t.last_quarter := by
  unfold statsStep; cases r.player_pts <;> rfl

@[simp] lemma statsStep_errors (t : GameTracker) (r : FrameReading) :
    (statsStep t r).errors = t.errors := by
  unfold statsStep; cases r.player_pts <;> rfl

@[simp] lemma quarterChangeStep_last_left (t : GameTracker) (r : FrameReading) :
    (quarterChangeStep t r).last_left_score = t.last_left_score := by
  unfold quarterChangeStep; split <;> rfl

@[simp] lemma quarterChangeStep_last_right (t : GameTracker) (r : FrameReading) :
    (quarterChangeStep t r).last_right_score = t.last_right_score := by
  unfold quarterChangeStep; split <;> rfl

@[simp] lemma quarterChangeStep_last_quarter (t : GameTracker) (r : FrameReading) :
    (quarterChangeStep t r).last_quarter = t.last_quarter := by
  unfold quarterChangeStep; split <;> rfl

@[simp] lemma quarterChangeStep_errors (t : GameTracker) (r : FrameReading) :
    (quarterChangeStep t r).errors = t.errors := by
  unfold quarterChangeStep; split <;> rfl

@[simp] lemma quarterCommitStep_events (t : GameTracker) (r : FrameReading) :
    (quarterCommitStep t r).events = t.events := by
  unfold quarterCommitStep; split <;> [skip; rfl]; split <;> rfl

@[simp] lemma quarterCommitStep_last_left (t : GameTracker) (r : FrameReading) :
    (quarterCommitStep t r).last_left_score = t.last_left_score := by
  unfold quarterCommitStep; split <;> [skip; rfl]; split <;> rfl

@[simp] lemma quarterCommitStep_last_right (t : GameTracker) (r : FrameReading) :
    (quarterCommitStep t r).last_right_score = t.last_right_score := by
  unfold quarterCommitStep; split <;> [skip; rfl]; split <;> rfl

@[simp] lemma quarterCommitStep_errors (t : GameTracker) (r : FrameReading) :
    (quarterCommitStep t r).errors = t.errors := by
  unfold quarterCommitStep; split <;> [skip; rfl]; split <;> rfl

lemma quarterCommitStep_last_quarter (t : GameTracker) (r : FrameReading) :
    (quarterCommitStep t r).last_quarter =
      if r.quarter ∈ validQuarters then r.quarter else t.last_quarter := by
  unfold quarterCommitStep; split <;> [skip; simp_all]; split <;> simp_all

@[simp] lemma scoreStep_last_quarter (t : GameTracker) (r : FrameReading) :
    (scoreStep t r).last_quarter = t.last_quarter := by
  unfold scoreStep; split <;> [skip; rfl]
  split <;> [rfl; skip]; split <;> [rfl; skip]; split <;> [rfl; skip]; split <;> rfl

@[simp] lemma bumpFrame_events (t : GameTracker) :
    (bumpFrame t).events = t.events := rfl

@[simp] lemma bumpFrame_last_left (t : GameTracker) :
    (bumpFrame t).last_left_score = t.last_left_score := rfl

@[simp] lemma bumpFrame_last_right (t : GameTracker) :
    (bumpFrame t).last_right_score = t.last_right_score := rfl

@[simp] lemma bumpFrame_last_quarter (t : GameTracker) :
    (bumpFrame t).last_quarter = t.last_quarter := rfl

@[simp] lemma bumpFrame_errors (t : GameTracker) :
    (bumpFrame t).errors = t.errors := rfl

lemma effLeft_congr (t t' : GameTracker) (r : FrameReading)
    (h : t'.last_left_score = t.last_left_score) : effLeft t' r = effLeft t r := by
  unfold effLeft; rw [h]

lemma effRight_congr (t t' : GameTracker) (r : FrameReading)
    (h : t'.last_right_score = t.last_right_score) : effRight t' r = effRight t r := by
  unfold effRight; rw [h]

/-! ### Idempotence of the summary builder's close-out -/

lemma setEndIfOpen_cons_of_ne_nil (sc : Int × Int) (q : QuarterScore)
    (x : List QuarterScore) (h : x ≠ []) :
    setEndIfOpen sc (q :: x) = q :: setEndIfOpen sc x := by
  cases x with
  | nil => exact absurd rfl h
  | cons a l => rfl

lemma setEndIfOpen_ne_nil (sc : Int × Int) (q : QuarterScore) (l : List QuarterScore) :
    setEndIfOpen sc (q :: l) ≠ [] := by
  cases l <;> simp [setEndIfOpen]

lemma setEndIfOpen_idem (sc : Int × Int) (l : List QuarterScore) :
    setEndIfOpen sc (setEndIfOpen sc l) = setEndIfOpen sc l := by
  induction l with
  | nil => rfl
  | cons q qs ih =>
    cases qs with
    | nil =>
      by_cases h : q.end_score = none <;> simp [setEndIfOpen, h]
    | cons q' qs' =>
      rw [setEndIfOpen_cons_of_ne_nil sc q (q' :: qs') (by simp),
        setEndIfOpen_cons_of_ne_nil sc q _ (setEndIfOpen_ne_nil sc q' qs'), ih]

@[simp] lemma closeQuarters_last_left (t : GameTracker) :
    (closeQuarters t).last_left_score = t.last_left_score := rfl

@[simp] lemma closeQuarters_last_right (t : GameTracker) :
    (closeQuarters t).last_right_score = t.last_right_score := rfl

lemma closeQuarters_idem (t : GameTracker) :
    closeQuarters (closeQuarters t) = closeQuarters t := by
  unfold closeQuarters
  simp [setEndIfOpen_idem]

/-! ### Shape of the events appended by one tracking step -/

lemma ldiff_congr (t t' : GameTracker) (r : FrameReading)
    (h : t'.last_left_score = t.last_left_score) : ldiff t' r = ldiff t r := by
  unfold ldiff; rw [effLeft_congr t t' r h, h]

lemma rdiff_congr (t t' : GameTracker) (r : FrameReading)
    (h : t'.last_right_score = t.last_right_score) : rdiff t' r = rdiff t r := by
  unfold rdiff; rw [effRight_congr t t' r h, h]

lemma shotLabel_eq_table (d : Int) (h1 : 0 < d) (h2 : d ≤ 4) :
    shotLabel d = shotTypeTable d := by
  unfold shotLabel shotTypeTable
  interval_cases d <;> rfl

/-- Either no quarter-change event fires, or exactly one fires, with the
snapshot of the pre-step accepted scores and the reading's (recognized)
quarter label. -/
lemma quarterChangeStep_events_shape (t : GameTracker) (r : FrameReading) :
    (quarterChangeStep t r).events = t.events ∨
    (r.quarter ∈ validQuarters ∧
      (quarterChangeStep t r).events = t.events ++
        [mkEvent r.timestamp_sec r.clock r.quarter ("quarter_change")
          ("Quarter: " ++ t.last_quarter ++ " -> " ++ r.quarter)
          t.last_left_score t.last_right_score]) := by
  unfold quarterChangeStep
  split
  · next h => exact Or.inr ⟨h.1, rfl⟩
  · exact Or.inl rfl

/-- The score step appends a (possibly empty) batch of events; the accepted
scores never decrease; every appended event carries the reading's timestamp,
the new accepted score pair as its snapshot, the Python-`or` quarter label,
and a recognized score event type with the delta/detail facts claimed for
its type. -/
lemma scoreStep_shape (t : GameTracker) (r : FrameReading) :
    ∃ se : List GameEvent,
      (scoreStep t r).events = t.events ++ se ∧
      t.last_left_score ≤ (scoreStep t r).last_left_score ∧
      t.last_right_score ≤ (scoreStep t r).last_right_score ∧
      ∀ e ∈ se,
        e.timestamp_sec = r.timestamp_sec ∧
        e.left_score = effLeft t r ∧
        e.left_score = (scoreStep t r).last_left_score ∧
        e.right_score = effRight t r ∧
        e.right_score = (scoreStep t r).last_right_score ∧
        e.quarter = pyOr r.quarter t.last_quarter ∧
        (e.event_type = "score_left" ∨ e.event_type = "score_right" ∨
          e.event_type = "score_jump") ∧
        (e.event_type = "score_left" →
          0 < ldiff t r ∧ ldiff t r ≤ 4 ∧ e.details = leftDetails t r) ∧
        (e.event_type = "score_right" →
          0 < rdiff t r ∧ rdiff t r ≤ 4 ∧ e.details = rightDetails t r) := by
  unfold scoreStep
  split
  · split
    · exact ⟨[], by simp, le_refl _, le_refl _, by simp⟩
    · split
      · exact ⟨[], by simp, le_refl _, le_refl _, by simp⟩
      · next h3 =>
        push_neg at h3
        rw [ldiff, rdiff] at h3
        split
        · next h4 =>
          refine ⟨_, rfl, by simp; omega, by simp; omega, ?_⟩
          intro e he
          rw [List.mem_append] at he
          rcases he with he | he
          · split at he
            · next hld =>
              rw [List.mem_singleton] at he
              subst he
              refine ⟨rfl, rfl, rfl, rfl, rfl, rfl, Or.inl rfl, fun _ => ⟨hld, h4.1, rfl⟩,
                fun hc => by simp only [mkEvent] at hc; exact absurd hc (by decide)⟩
            · exact absurd he (by simp)
          · split at he
            · next hrd =>
              rw [List.mem_singleton] at he
              subst he
              refine ⟨rfl, rfl, rfl, rfl, rfl, rfl, Or.inr (Or.inl rfl),
                fun hc => by simp only [mkEvent] at hc; exact absurd hc (by decide), fun _ => ⟨hrd, h4.2.1, rfl⟩⟩
            · exact absurd he (by simp)
        · split
          · next h5 =>
            refine ⟨_, rfl, by simp; omega, by simp; omega, ?_⟩
            intro e he
            rw [List.mem_singleton] at he
            subst he
            exact ⟨rfl, rfl, rfl, rfl, rfl, rfl, Or.inr (Or.inr rfl),
              fun hc => by simp only [mkEvent] at hc; exact absurd hc (by decide), fun hc => by simp only [mkEvent] at hc; exact absurd hc (by decide)⟩
          · exact ⟨[], by simp, le_refl _, le_refl _, by simp⟩
  · exact ⟨[], by simp, le_refl _, le_refl _, by simp⟩

lemma leftDetails_eq (t : GameTracker) (r : FrameReading)
    (h0 : 0 < ldiff t r) (h4 : ldiff t r ≤ 4) :
    leftDetails t r = "Left scored " ++ shotTypeTable (effLeft t r - t.last_left_score)
      ++ " (" ++ toString t.last_left_score ++ "->" ++ toString (effLeft t r) ++ ")" := by
  simp only [leftDetails]
  rw [shotLabel_eq_table _ h0 h4]
  simp only [ldiff]

lemma rightDetails_eq (t : GameTracker) (r : FrameReading)
    (h0 : 0 < rdiff t r) (h4 : rdiff t r ≤ 4) :
    rightDetails t r = "Right scored " ++ shotTypeTable (effRight t r - t.last_right_score)
      ++ " (" ++ toString t.last_right_score ++ "->" ++ toString (effRight t r) ++ ")" := by
  simp only [rightDetails]
  rw [shotLabel_eq_table _ h0 h4]
  simp only [rdiff]

/-- C5: every `score_left` / `score_right` event appended by a processing
step has an own-side delta (relative to the accepted score pair immediately
before the step) in {1, 2, 3, 4}, and its detail string carries exactly the
shot-type label given by the fixed table {1: FT, 2: 2PT, 3: 3PT, 4: 3PT+FT}
applied to that delta — the defensive `+N` fallback never fires. -/
theorem c5_bounded_deltas_and_shot_table (t : GameTracker) (r : FrameReading) :
    ∃ ne : List GameEvent, (processFrame t r).events = t.events ++ ne ∧
      ∀ e ∈ ne,
        (e.event_type = "score_left" →
          1 ≤ e.left_score - t.last_left_score ∧ e.left_score - t.last_left_score ≤ 4 ∧
          e.details = "Left scored " ++ shotTypeTable (e.left_score - t.last_left_score)
            ++ " (" ++ toString t.last_left_score ++ "->" ++ toString e.left_score ++ ")") ∧
        (e.event_type = "score_right" →
          1 ≤ e.right_score - t.last_right_score ∧ e.right_score - t.last_right_score ≤ 4 ∧
          e.details = "Right scored " ++ shotTypeTable (e.right_score - t.last_right_score)
            ++ " (" ++ toString t.last_right_score ++ "->" ++ toString e.right_score ++ ")") := by
  unfold processFrame
  split
  · unfold trackFrame
    set t3 := quarterCommitStep (quarterChangeStep (statsStep t r) r) r with ht3
    have hL : t3.last_left_score = t.last_left_score := by rw [ht3]; simp
    have hR : t3.last_right_score = t.last_right_score := by rw [ht3]; simp
    obtain ⟨se, hse, hsL, hsR, hmem⟩ := scoreStep_shape t3 r
    have hdetail : ∀ e ∈ se,
        (e.event_type = "score_left" →
          1 ≤ e.left_score - t.last_left_score ∧ e.left_score - t.last_left_score ≤ 4 ∧
          e.details = "Left scored " ++ shotTypeTable (e.left_score - t.last_left_score)
            ++ " (" ++ toString t.last_left_score ++ "->" ++ toString e.left_score ++ ")") ∧
        (e.event_type = "score_right" →
          1 ≤ e.right_score - t.last_right_score ∧ e.right_score - t.last_right_score ≤ 4 ∧
          e.details = "Right scored " ++ shotTypeTable (e.right_score - t.last_right_score)
            ++ " (" ++ toString t.last_right_score ++ "->" ++ toString e.right_score ++ ")") := by
      intro e he
      obtain ⟨hts, heL, heL', heR, heR', hqv', htypes, hleft, hright⟩ := hmem e he
      constructor
      · intro hty
        obtain ⟨h0, h4, hdet⟩ := hleft hty
        have hld : ldiff t3 r = ldiff t r := ldiff_congr t t3 r hL
        have h0' : 0 < ldiff t r := hld ▸ h0
        have h4' : ldiff t r ≤ 4 := hld ▸ h4
        have heLt : e.left_score = effLeft t r := by
          rw [heL, effLeft_congr t t3 r hL]
        have hδ : e.left_score - t.last_left_score = ldiff t r := by
          rw [heLt]; rfl
        refine ⟨by omega, by omega, ?_⟩
        rw [hdet, hδ, heLt, leftDetails_eq t3 r h0 h4, effLeft_congr t t3 r hL, hL]
        simp only [ldiff]
      · intro hty
        obtain ⟨h0, h4, hdet⟩ := hright hty
        have hrd : rdiff t3 r = rdiff t r := rdiff_congr t t3 r hR
        have h0' : 0 < rdiff t r := hrd ▸ h0
        have h4' : rdiff t r ≤ 4 := hrd ▸ h4
        have heRt : e.right_score = effRight t r := by
          rw [heR, effRight_congr t t3 r hR]
        have hδ : e.right_score - t.last_right_score = rdiff t r := by
          rw [heRt]; rfl
        refine ⟨by omega, by omega, ?_⟩
        rw [hdet, hδ, heRt, rightDetails_eq t3 r h0 h4, effRight_congr t t3 r hR, hR]
        simp only [rdiff]
    rcases quarterChangeStep_events_shape (statsStep t r) r with hq | ⟨hqv, hq⟩
    · refine ⟨se, ?_, hdetail⟩
      show (bumpFrame (scoreStep t3 r)).events = t.events ++ se
      have hoe : t3.events = t.events := by
        rw [ht3, quarterCommitStep_events, hq, statsStep_events]
      rw [bumpFrame_events, hse, hoe]
    · refine ⟨mkEvent r.timestamp_sec r.clock r.quarter ("quarter_change")
          ("Quarter: " ++ (statsStep t r).last_quarter ++ " -> " ++ r.quarter)
          (statsStep t r).last_left_score (statsStep t r).last_right_score :: se, ?_, ?_⟩
      · show (bumpFrame (scoreStep t3 r)).events = t.events ++ _
        have hoe : t3.events = t.events ++
            [mkEvent r.timestamp_sec r.clock r.quarter ("quarter_change")
              ("Quarter: " ++ (statsStep t r).last_quarter ++ " -> " ++ r.quarter)
              (statsStep t r).last_left_score (statsStep t r).last_right_score] := by
          rw [ht3, quarterCommitStep_events, hq, statsStep_events]
        rw [bumpFrame_events, hse, hoe, List.append_assoc]
        rfl
      · intro e he
        rcases List.mem_cons.1 he with he | he
        · subst he
          constructor
          · intro hc
            simp only [mkEvent] at hc
            exact absurd hc (by decide)
          · intro hc
            simp only [mkEvent] at hc
            exact absurd hc (by decide)
        · exact hdetail e he
  · exact ⟨[], by simp, by simp⟩

/-- Witness for C5 at a concrete state and reading (a +2 left basket). -/
theorem c5_witness :
    ∃ ne : List GameEvent,
      (processFrame initTracker c5Reading).events = initTracker.events ++ ne ∧
      ∀ e ∈ ne,
        (e.event_type = "score_left" →
          1 ≤ e.left_score - initTracker.last_left_score ∧
          e.left_score - initTracker.last_left_score ≤ 4 ∧
          e.details = "Left scored "
            ++ shotTypeTable (e.left_score - initTracker.last_left_score)
            ++ " (" ++ toString initTracker.last_left_score ++ "->"
            ++ toString e.left_score ++ ")") ∧
        (e.event_type = "score_right" →
          1 ≤ e.right_score - initTracker.last_right_score ∧
          e.right_score - initTracker.last_right_score ≤ 4 ∧
          e.details = "Right scored "
            ++ shotTypeTable (e.right_score - initTracker.last_right_score)
            ++ " (" ++ toString initTracker.last_right_score ++ "->"
            ++ toString e.right_score ++ ")") :=
  c5_bounded_deltas_and_shot_table initTracker c5Reading

/-- A reading whose effective pair is in range, has no negative delta, and
jumps by more than 15 on at least one side falls through every acceptance
branch of the score step: only the error counter moves. -/
lemma scoreStep_reject_big (t : GameTracker) (r : FrameReading)
    (hr1 : 0 ≤ effLeft t r) (hr2 : effLeft t r ≤ 99)
    (hr3 : 0 ≤ effRight t r) (hr4 : effRight t r ≤ 99)
    (hn1 : 0 ≤ ldiff t r) (hn2 : 0 ≤ rdiff t r)
    (hbig : 15 < ldiff t r ∨ 15 < rdiff t r) :
    scoreStep t r = { t with errors := t.errors + 1 } := by
  unfold scoreStep
  simp only [ldiff, rdiff] at hbig hn1 hn2
  have hch : effLeft t r ≠ t.last_left_score ∨ effRight t r ≠ t.last_right_score := by
    omega
  rw [if_pos hch, if_neg (by omega)]
  rw [if_neg (by simp only [ldiff, rdiff]; omega)]
  rw [if_neg (by simp only [ldiff, rdiff]; omega)]
  rw [if_neg (by simp only [ldiff, rdiff]; omega)]

/-- C3 (amended): for every tracker state and every delivered reading whose
effective score pair is in range, implies no negative delta, and implies a
delta greater than 15 on at least one side, the tracking step leaves the
accepted score pair unchanged, increments the error counter by exactly 1,
and appends no score event — at most a `quarter_change` event is appended
(when the reading also carries a recognized new quarter label). -/
theorem c3_amended_big_jump_rejected (t : GameTracker) (r : FrameReading)
    (hr1 : 0 ≤ effLeft t r) (hr2 : effLeft t r ≤ 99)
    (hr3 : 0 ≤ effRight t r) (hr4 : effRight t r ≤ 99)
    (hn1 : 0 ≤ ldiff t r) (hn2 : 0 ≤ rdiff t r)
    (hbig : 15 < ldiff t r ∨ 15 < rdiff t r) :
    (trackFrame t r).last_left_score = t.last_left_score ∧
    (trackFrame t r).last_right_score = t.last_right_score ∧
    (trackFrame t r).errors = t.errors + 1 ∧
    ((trackFrame t r).events = t.events ∨
      ∃ e, (trackFrame t r).events = t.events ++ [e] ∧ e.event_type = "quarter_change") := by
  unfold trackFrame
  have hL : (quarterCommitStep (quarterChangeStep (statsStep t r) r) r).last_left_score
      = t.last_left_score := by simp
  have hR : (quarterCommitStep (quarterChangeStep (statsStep t r) r) r).last_right_score
      = t.last_right_score := by simp
  have hstep : scoreStep (quarterCommitStep (quarterChangeStep (statsStep t r) r) r) r =
      { quarterCommitStep (quarterChangeStep (statsStep t r) r) r with
          errors := (quarterCommitStep (quarterChangeStep (statsStep t r) r) r).errors + 1 } :=
    scoreStep_reject_big _ r
      (by rw [effLeft_congr _ _ _ hL]; exact hr1)
      (by rw [effLeft_congr _ _ _ hL]; exact hr2)
      (by rw [effRight_congr _ _ _ hR]; exact hr3)
      (by rw [effRight_congr _ _ _ hR]; exact hr4)
      (by rw [ldiff_congr _ _ _ hL]; exact hn1)
      (by rw [rdiff_congr _ _ _ hR]; exact hn2)
      (by rw [ldiff_congr _ _ _ hL, rdiff_congr _ _ _ hR]; exact hbig)
  rw [hstep]
  refine ⟨by simp, by simp, by simp, ?_⟩
  rcases quarterChangeStep_events_shape (statsStep t r) r with hq | ⟨hqv, hq⟩
  · left
    show (quarterCommitStep (quarterChangeStep (statsStep t r) r) r).events = t.events
    rw [quarterCommitStep_events, hq, statsStep_events]
  · right
    refine ⟨mkEvent r.timestamp_sec r.clock r.quarter ("quarter_change")
        ("Quarter: " ++ (statsStep t r).last_quarter ++ " -> " ++ r.quarter)
        (statsStep t r).last_left_score (statsStep t r).last_right_score, ?_, rfl⟩
    show (quarterCommitStep (quarterChangeStep (statsStep t r) r) r).events = t.events ++ _
    rw [quarterCommitStep_events, hq, statsStep_events]

/-- Witness for the amended C3 statement: a concrete 0-0 to 20-0 reading. -/
theorem c3_amended_witness :
    (trackFrame initTracker c3wReading).last_left_score = initTracker.last_left_score ∧
    (trackFrame initTracker c3wReading).last_right_score = initTracker.last_right_score ∧
    (trackFrame initTracker c3wReading).errors = initTracker.errors + 1 ∧
    ((trackFrame initTracker c3wReading).events = initTracker.events ∨
      ∃ e, (trackFrame initTracker c3wReading).events = initTracker.events ++ [e] ∧
        e.event_type = "quarter_change") :=
  c3_amended_big_jump_rejected initTracker c3wReading (by decide) (by decide) (by decide)
    (by decide) (by decide) (by decide) (by decide)

/-- The score step keeps the accepted scores inside [0, 99]: every branch
that commits a new pair has passed the hard range guard. -/
lemma scoreStep_range (t : GameTracker) (r : FrameReading)
    (hL0 : 0 ≤ t.last_left_score) (hL9 : t.last_left_score ≤ 99)
    (hR0 : 0 ≤ t.last_right_score) (hR9 : t.last_right_score ≤ 99) :
    0 ≤ (scoreStep t r).last_left_score ∧ (scoreStep t r).last_left_score ≤ 99 ∧
    0 ≤ (scoreStep t r).last_right_score ∧ (scoreStep t r).last_right_score ≤ 99 := by
  unfold scoreStep
  split
  · split
    · exact ⟨hL0, hL9, hR0, hR9⟩
    · next hrange =>
      push_neg at hrange
      split
      · exact ⟨hL0, hL9, hR0, hR9⟩
      · split
        · exact ⟨hrange.1, hrange.2.1, hrange.2.2.1, hrange.2.2.2⟩
        · split
          · exact ⟨hrange.1, hrange.2.1, hrange.2.2.1, hrange.2.2.2⟩
          · exact ⟨hL0, hL9, hR0, hR9⟩
  · exact ⟨hL0, hL9, hR0, hR9⟩

/-- C10: every per-frame step preserves the state invariant (accepted scores
in [0, 99]; last accepted quarter recognized), and — given the region
reader's guarantee that a reading's quarter is either recognized or the empty
sentinel — every event appended by the step carries a recognized quarter
label, never the unknown sentinel. -/
theorem c10_state_invariant_and_event_quarters (t : GameTracker) (r : FrameReading)
    (hs : StateOK t) (hq : r.quarter ∈ validQuarters ∨ r.quarter = "") :
    StateOK (processFrame t r) ∧
    ∃ ne : List GameEvent, (processFrame t r).events = t.events ++ ne ∧
      ∀ e ∈ ne, e.quarter ∈ validQuarters := by
  obtain ⟨h1, h2, h3, h4, h5⟩ := hs
  unfold processFrame
  split
  · unfold trackFrame
    set t3 := quarterCommitStep (quarterChangeStep (statsStep t r) r) r with ht3
    have hL : t3.last_left_score = t.last_left_score := by rw [ht3]; simp
    have hR : t3.last_right_score = t.last_right_score := by rw [ht3]; simp
    have hQ3 : t3.last_quarter =
        if r.quarter ∈ validQuarters then r.quarter else t.last_quarter := by
      rw [ht3, quarterCommitStep_last_quarter, quarterChangeStep_last_quarter,
        statsStep_last_quarter]
    have hQ3v : t3.last_quarter ∈ validQuarters := by
      rw [hQ3]
      split
      · next hv => exact hv
      · exact h5
    obtain ⟨se, hse, hsL, hsR, hmem⟩ := scoreStep_shape t3 r
    have hrange := scoreStep_range t3 r (hL ▸ h1) (hL ▸ h2) (hR ▸ h3) (hR ▸ h4)
    constructor
    · exact ⟨hrange.1, hrange.2.1, hrange.2.2.1, hrange.2.2.2,
        by rw [bumpFrame_last_quarter, scoreStep_last_quarter]; exact hQ3v⟩
    · have hseq : ∀ e ∈ se, e.quarter ∈ validQuarters := by
        intro e he
        have hqv' := (hmem e he).2.2.2.2.2.1
        rcases hq with hv | hempty
        · have hne : r.quarter ≠ "" := by
            intro hc
            rw [hc] at hv
            exact absurd hv (by decide)
          rw [hqv']
          simp only [pyOr, if_neg hne]
          exact hv
        · have ht3q : t3.last_quarter = t.last_quarter := by
            rw [hQ3, hempty, if_neg (by decide)]
          rw [hqv', hempty]
          simp only [pyOr, if_pos rfl]
          rw [ht3q]
          exact h5
      rcases quarterChangeStep_events_shape (statsStep t r) r with hqe | ⟨hqv2, hqe⟩
      · refine ⟨se, ?_, hseq⟩
        show (bumpFrame (scoreStep t3 r)).events = t.events ++ se
        have hoe : t3.events = t.events := by
          rw [ht3, quarterCommitStep_events, hqe, statsStep_events]
        rw [bumpFrame_events, hse, hoe]
      · refine ⟨mkEvent r.timestamp_sec r.clock r.quarter ("quarter_change")
            ("Quarter: " ++ (statsStep t r).last_quarter ++ " -> " ++ r.quarter)
            (statsStep t r).last_left_score (statsStep t r).last_right_score :: se, ?_, ?_⟩
        · show (bumpFrame (scoreStep t3 r)).events = t.events ++ _
          have hoe : t3.events = t.events ++
              [mkEvent r.timestamp_sec r.clock r.quarter ("quarter_change")
                ("Quarter: " ++ (statsStep t r).last_quarter ++ " -> " ++ r.quarter)
                (statsStep t r).last_left_score (statsStep t r).last_right_score] := by
            rw [ht3, quarterCommitStep_events, hqe, statsStep_events]
          rw [bumpFrame_events, hse, hoe, List.append_assoc]
          rfl
        · intro e he
          rcases List.mem_cons.1 he with he | he
          · subst he
            exact hqv2
          · exact hseq e he
  · exact ⟨⟨h1, h2, h3, h4, h5⟩, [], by simp, by simp⟩

/-- Witness for C10 at the fresh tracker and a recognized-quarter reading. -/
theorem c10_witness :
    StateOK (processFrame initTracker c6Second) ∧
    ∃ ne : List GameEvent,
      (processFrame initTracker c6Second).events = initTracker.events ++ ne ∧
      ∀ e ∈ ne, e.quarter ∈ validQuarters :=
  c10_state_invariant_and_event_quarters initTracker c6Second
    ⟨by decide, by decide, by decide, by decide, by decide⟩ (Or.inl (by decide))

/-! ### The event-log monotonicity invariant (C1) -/

lemma mem_of_getLast_opt {α : Type _} {l : List α} {x : α} (h : x ∈ l.getLast?) : x ∈ l := by
  obtain ⟨hne, rfl⟩ := List.mem_getLast?_eq_getLast h
  exact List.getLast_mem hne

lemma chain'_of_const (l : List GameEvent) (L R : Int) (ts : ℚ)
    (h : ∀ e ∈ l, e.left_score = L ∧ e.right_score = R ∧ e.timestamp_sec = ts) :
    l.Chain' fullRel := by
  induction l with
  | nil => exact List.chain'_nil
  | cons a l ih =>
    cases l with
    | nil => simp
    | cons b l' =>
      rw [List.chain'_cons]
      obtain ⟨ha1, ha2, ha3⟩ := h a (List.mem_cons_self a _)
      obtain ⟨hb1, hb2, hb3⟩ := h b (List.mem_cons_of_mem a (List.mem_cons_self b _))
      exact ⟨⟨by rw [ha1, hb1], by rw [ha2, hb2], by rw [ha3, hb3]⟩,
        ih fun e he => h e (List.mem_cons_of_mem a he)⟩

/-- One live tracking step appends a batch of events that is internally
ordered (scores and timestamps), whose snapshots sit between the previous
and the new accepted score pair, and whose timestamps are all the reading's
timestamp; the accepted scores never decrease. -/
lemma trackFrame_shape (t : GameTracker) (r : FrameReading) :
    ∃ ne : List GameEvent,
      (trackFrame t r).events = t.events ++ ne ∧
      t.last_left_score ≤ (trackFrame t r).last_left_score ∧
      t.last_right_score ≤ (trackFrame t r).last_right_score ∧
      ne.Chain' fullRel ∧
      ∀ e ∈ ne, e.timestamp_sec = r.timestamp_sec ∧
        t.last_left_score ≤ e.left_score ∧
        e.left_score ≤ (trackFrame t r).last_left_score ∧
        t.last_right_score ≤ e.right_score ∧
        e.right_score ≤ (trackFrame t r).last_right_score := by
  unfold trackFrame
  set t3 := quarterCommitStep (quarterChangeStep (statsStep t r) r) r with ht3
  have hL : t3.last_left_score = t.last_left_score := by rw [ht3]; simp
  have hR : t3.last_right_score = t.last_right_score := by rw [ht3]; simp
  obtain ⟨se, hse, hsL, hsR, hmem⟩ := scoreStep_shape t3 r
  have hmonoL : t.last_left_score ≤ (bumpFrame (scoreStep t3 r)).last_left_score := by
    rw [bumpFrame_last_left, ← hL]; exact hsL
  have hmonoR : t.last_right_score ≤ (bumpFrame (scoreStep t3 r)).last_right_score := by
    rw [bumpFrame_last_right, ← hR]; exact hsR
  have hchain : se.Chain' fullRel :=
    chain'_of_const se (scoreStep t3 r).last_left_score (scoreStep t3 r).last_right_score
      r.timestamp_sec
      (fun e he => ⟨(hmem e he).2.2.1, (hmem e he).2.2.2.2.1, (hmem e he).1⟩)
  have hememb : ∀ e ∈ se, e.timestamp_sec = r.timestamp_sec ∧
      t.last_left_score ≤ e.left_score ∧
      e.left_score ≤ (bumpFrame (scoreStep t3 r)).last_left_score ∧
      t.last_right_score ≤ e.right_score ∧
      e.right_score ≤ (bumpFrame (scoreStep t3 r)).last_right_score := by
    intro e he
    obtain ⟨hts, _, heL', _, heR', _, _, _, _⟩ := hmem e he
    refine ⟨hts, ?_, ?_, ?_, ?_⟩
    · rw [heL', ← hL]; exact hsL
    · rw [bumpFrame_last_left]; exact le_of_eq heL'
    · rw [heR', ← hR]; exact hsR
    · rw [bumpFrame_last_right]; exact le_of_eq heR'
  rcases quarterChangeStep_events_shape (statsStep t r) r with hq | ⟨hqv, hq⟩
  · refine ⟨se, ?_, hmonoL, hmonoR, hchain, hememb⟩
    have hoe : t3.events = t.events := by
      rw [ht3, quarterCommitStep_events, hq, statsStep_events]
    rw [bumpFrame_events, hse, hoe]
  · set qc := mkEvent r.timestamp_sec r.clock r.quarter ("quarter_change")
        ("Quarter: " ++ (statsStep t r).last_quarter ++ " -> " ++ r.quarter)
        (statsStep t r).last_left_score (statsStep t r).last_right_score with hqc
    have hqcL : qc.left_score = t.last_left_score := by
      rw [hqc]; simp [mkEvent]
    have hqcR : qc.right_score = t.last_right_score := by
      rw [hqc]; simp [mkEvent]
    have hqcT : qc.timestamp_sec = r.timestamp_sec := by
      rw [hqc]; rfl
    refine ⟨qc :: se, ?_, hmonoL, hmonoR, ?_, ?_⟩
    · have hoe : t3.events = t.events ++ [qc] := by
        rw [ht3, quarterCommitStep_events, hq, statsStep_events, hqc]
      rw [bumpFrame_events, hse, hoe, List.append_assoc]
      rfl
    · rw [List.chain'_cons']
      refine ⟨?_, hchain⟩
      intro y hy
      obtain ⟨hts, _, heL', _, heR', _, _, _, _⟩ := hmem y (List.mem_of_mem_head? hy)
      refine ⟨?_, ?_, ?_⟩
      · rw [hqcL, heL', ← hL]; exact hsL
      · rw [hqcR, heR', ← hR]; exact hsR
      · rw [hqcT, hts]
    · intro e he
      rcases List.mem_cons.1 he with he | he
      · subst he
        refine ⟨hqcT, le_of_eq hqcL.symm, ?_, le_of_eq hqcR.symm, ?_⟩
        · rw [hqcL]; exact hmonoL
        · rw [hqcR]; exact hmonoR
      · exact hememb e he

/-- The per-frame step version of `trackFrame_shape` (a non-live frame
appends nothing and changes no score). -/
lemma processFrame_shape (t : GameTracker) (r : FrameReading) :
    ∃ ne : List GameEvent,
      (processFrame t r).events = t.events ++ ne ∧
      t.last_left_score ≤ (processFrame t r).last_left_score ∧
      t.last_right_score ≤ (processFrame t r).last_right_score ∧
      ne.Chain' fullRel ∧
      ∀ e ∈ ne, e.timestamp_sec = r.timestamp_sec ∧
        t.last_left_score ≤ e.left_score ∧
        e.left_score ≤ (processFrame t r).last_left_score ∧
        t.last_right_score ≤ e.right_score ∧
        e.right_score ≤ (processFrame t r).last_right_score := by
  unfold processFrame
  split
  · exact trackFrame_shape t r
  · exact ⟨[], by simp, le_refl _, le_refl _, List.chain'_nil, by simp⟩

lemma processFrame_invS (t : GameTracker) (r : FrameReading)
    (h1 : t.events.Chain' scoreRel)
    (h2 : ∀ e ∈ t.events,
      e.left_score ≤ t.last_left_score ∧ e.right_score ≤ t.last_right_score) :
    (processFrame t r).events.Chain' scoreRel ∧
    ∀ e ∈ (processFrame t r).events,
      e.left_score ≤ (processFrame t r).last_left_score ∧
      e.right_score ≤ (processFrame t r).last_right_score := by
  obtain ⟨ne, hne, hmL, hmR, hch, hmem⟩ := processFrame_shape t r
  constructor
  · rw [hne, List.chain'_append]
    refine ⟨h1, hch.imp fun a b hab => ⟨hab.1, hab.2.1⟩, ?_⟩
    intro x hx y hy
    have hx' := h2 x (mem_of_getLast_opt hx)
    have hy' := hmem y (List.mem_of_mem_head? hy)
    exact ⟨le_trans hx'.1 hy'.2.1, le_trans hx'.2 hy'.2.2.2.1⟩
  · intro e he
    rw [hne, List.mem_append] at he
    rcases he with he | he
    · exact ⟨le_trans (h2 e he).1 hmL, le_trans (h2 e he).2 hmR⟩
    · exact ⟨(hmem e he).2.2.1, (hmem e he).2.2.2.2⟩

lemma processFrame_invT (t : GameTracker) (r : FrameReading) (τ : ℚ)
    (h1 : t.events.Chain' tsRel)
    (h2 : ∀ e ∈ t.events, e.timestamp_sec ≤ τ) (hτ : τ ≤ r.timestamp_sec) :
    (processFrame t r).events.Chain' tsRel ∧
    ∀ e ∈ (processFrame t r).events, e.timestamp_sec ≤ r.timestamp_sec := by
  obtain ⟨ne, hne, _, _, hch, hmem⟩ := processFrame_shape t r
  constructor
  · rw [hne, List.chain'_append]
    refine ⟨h1, hch.imp fun a b hab => hab.2.2, ?_⟩
    intro x hx y hy
    have hx' := h2 x (mem_of_getLast_opt hx)
    have hy' := (hmem y (List.mem_of_mem_head? hy)).1
    show x.timestamp_sec ≤ y.timestamp_sec
    rw [hy']
    exact le_trans hx' hτ
  · intro e he
    rw [hne, List.mem_append] at he
    rcases he with he | he
    · exact le_trans (h2 e he) hτ
    · exact le_of_eq (hmem e he).1

lemma runTracker_invS (rs : List FrameReading) : ∀ (t : GameTracker),
    t.events.Chain' scoreRel →
    (∀ e ∈ t.events,
      e.left_score ≤ t.last_left_score ∧ e.right_score ≤ t.last_right_score) →
    (runTracker t rs).events.Chain' scoreRel ∧
    ∀ e ∈ (runTracker t rs).events,
      e.left_score ≤ (runTracker t rs).last_left_score ∧
      e.right_score ≤ (runTracker t rs).last_right_score := by
  induction rs with
  | nil => exact fun t h1 h2 => ⟨h1, h2⟩
  | cons r rs ih =>
    intro t h1 h2
    have hstep := processFrame_invS t r h1 h2
    exact ih (processFrame t r) hstep.1 hstep.2

lemma runTracker_invT (rs : List FrameReading) : ∀ (t : GameTracker) (τ : ℚ),
    t.events.Chain' tsRel →
    (∀ e ∈ t.events, e.timestamp_sec ≤ τ) →
    List.Chain (· ≤ ·) τ (rs.map (fun r => r.timestamp_sec)) →
    (runTracker t rs).events.Chain' tsRel := by
  induction rs with
  | nil => exact fun t τ h1 _ _ => h1
  | cons r rs ih =>
    intro t τ h1 h2 hsort
    rw [List.map_cons, List.chain_cons] at hsort
    have hstep := processFrame_invT t r τ h1 h2 hsort.1
    exact ih (processFrame t r) r.timestamp_sec hstep.1 hstep.2 hsort.2

/-- C1: over any stream of readings processed from the fresh tracker, the
score snapshots carried by consecutive events in the event log are
monotonically non-decreasing on both sides; and when the readings are
delivered in increasing timestamp order, the events sit in non-decreasing
timestamp order. -/
theorem c1_event_log_monotonic (rs : List FrameReading) :
    (runTracker initTracker rs).events.Chain' scoreRel ∧
    ((rs.map (fun r => r.timestamp_sec)).Chain' (· < ·) →
      (runTracker initTracker rs).events.Chain' tsRel) := by
  constructor
  · exact (runTracker_invS rs initTracker List.chain'_nil
      (fun e he => absurd he (List.not_mem_nil e))).1
  · intro hsort
    cases rs with
    | nil => exact List.chain'_nil
    | cons r rs' =>
      rw [List.map_cons] at hsort
      have hc : List.Chain (· < ·) r.timestamp_sec (rs'.map (fun x => x.timestamp_sec)) :=
        hsort
      refine runTracker_invT (r :: rs') initTracker r.timestamp_sec List.chain'_nil
        (fun e he => absurd he (List.not_mem_nil e)) ?_
      rw [List.map_cons]
      exact List.Chain.cons (le_refl _) (List.Chain.imp (fun a b h => le_of_lt h) hc)

/-- Witness for C1 on a concrete strictly-increasing two-sample stream. -/
theorem c1_witness :
    (w1Readings.map (fun r => r.timestamp_sec)).Chain' (· < ·) ∧
    (runTracker initTracker w1Readings).events.Chain' scoreRel ∧
    (runTracker initTracker w1Readings).events.Chain' tsRel := by
  have hs : (w1Readings.map (fun r => r.timestamp_sec)).Chain' (· < ·) := by
    rw [show w1Readings.map (fun r => r.timestamp_sec) = [(0 : ℚ), 2] from rfl]
    exact List.chain'_cons.mpr ⟨by decide, List.chain'_singleton 2⟩
  exact ⟨hs, (c1_event_log_monotonic w1Readings).1,
    (c1_event_log_monotonic w1Readings).2 hs⟩

/-- C2: feeding a freshly initialized tracker the 10-sample stream with
scores 0-0,0-0,2-0,2-0,2-3,2-3,5-3,5-3,5-3,5-6 and quarter constant `1st`
yields exactly 4 score events — +2 left at sample 3, +3 right at sample 5,
+3 left at sample 7, +3 right at sample 10 (samples 2 seconds apart) — with
shot types 2PT, 3PT, 3PT, 3PT, an error counter of 0, and a final accepted
score of 5-6. -/
theorem c2_end_to_end_scenario :
    (runTracker initTracker c2Readings).events.map
        (fun e => (e.event_type, e.timestamp_sec, e.details)) =
      [("score_left", (4 : ℚ), "Left scored 2PT (0->2)"),
       ("score_right", (8 : ℚ), "Right scored 3PT (0->3)"),
       ("score_left", (12 : ℚ), "Left scored 3PT (2->5)"),
       ("score_right", (18 : ℚ), "Right scored 3PT (3->6)")] ∧
    (runTracker initTracker c2Readings).errors = 0 ∧
    (runTracker initTracker c2Readings).last_left_score = 5 ∧
    (runTracker initTracker c2Readings).last_right_score = 6 := by
  decide

/-- C4 (code behavior at the failing input): for the event list produced by
left +2, +2, +3 with no right-side scoring, the summary builder reports NO
scoring run — the walk never flushes a run still open at the end of the
list; even when a later right basket flushes it, the run's points are counted
from after its first event (7 − 2 = 5 < 6), so still no run; and with a
right +2 inserted between the left events no run is reported either.  The
claim (one left-side run of ≥ 6) fails on the first two inputs. -/
theorem c4_no_scoring_run_detected :
    (processVideoToSummary (runTracker initTracker c4Readings)).1.scoring_runs = [] ∧
    (processVideoToSummary (runTracker initTracker c4FlushReadings)).1.scoring_runs = [] ∧
    (processVideoToSummary (runTracker initTracker c4InterruptReadings)).1.scoring_runs = [] := by
  decide

/-- C6: a fresh tracker fed a first reading of quarter `1st` emits no
`quarter_change` event (no event at all), and fed `1st` then `2nd` emits
exactly one `quarter_change` event whose detail describes `1st -> 2nd`. -/
theorem c6_quarter_change_events :
    (runTracker initTracker [c6First]).events.filter
        (fun e => e.event_type = "quarter_change") = [] ∧
    ((runTracker initTracker [c6First, c6Second]).events.filter
        (fun e => e.event_type = "quarter_change")).map
        (fun e => (e.event_type, e.details)) =
      [("quarter_change", "Quarter: 1st -> 2nd")] := by
  decide

/-- C7 (code behavior at the failing input): a single delta-4 left scoring
event (details `Left scored 3PT+FT (0->4)`) is tallied in the left FT bucket,
not the 3PT+FT bucket — the bucket loop tests `"FT" in details` first and
`"3PT+FT"` contains `"FT"` as a substring.  The claim (delta-4 events are
counted in the 3PT+FT bucket) fails on this input. -/
theorem c7_delta4_counted_as_ft :
    (runTracker initTracker [c7Reading]).events.map (fun e => (e.event_type, e.details)) =
      [("score_left", "Left scored 3PT+FT (0->4)")] ∧
    (processVideoToSummary (runTracker initTracker [c7Reading])).1.shot_type_breakdown =
      { left := { ft := 1, p2 := 0, p3 := 0, p3ft := 0, jump := 0 }, right := {} } := by
  decide

/-- C3 counterexample: the reading `left 0 -> 20` (a delta > 15 with both
values in range and no negative delta) carrying quarter `2nd` is processed
from the fresh tracker: the accepted score is unchanged and the error counter
increments, but an event IS appended (the `quarter_change` event), so the
claim's "appends no event" is false at this input. -/
theorem c3_counterexample :
    c3Reading.is_live = true ∧
    0 ≤ effLeft initTracker c3Reading ∧ effLeft initTracker c3Reading ≤ 99 ∧
    0 ≤ effRight initTracker c3Reading ∧ effRight initTracker c3Reading ≤ 99 ∧
    0 ≤ ldiff initTracker c3Reading ∧ 0 ≤ rdiff initTracker c3Reading ∧
    15 < ldiff initTracker c3Reading ∧
    (trackFrame initTracker c3Reading).last_left_score = initTracker.last_left_score ∧
    (trackFrame initTracker c3Reading).last_right_score = initTracker.last_right_score ∧
    (trackFrame initTracker c3Reading).errors = initTracker.errors + 1 ∧
    ¬(trackFrame initTracker c3Reading).events = initTracker.events := by
  decide

/-- C8 counterexample: `process_video_to_summary` is not mutation-free — on a
finished state with one still-open quarter record it stamps that record's end
score, so the tracker state afterwards differs from the state before. -/
theorem c8_counterexample :
    (processVideoToSummary c8State).2 ≠ c8State := by
  decide

/-- C8 (amended): running the summary builder twice on the same finished
tracker state yields an identical result — identical summary output and an
identical post-run state.  (The first run's only state effect is the
idempotent stamping of the last open quarter record's end score, which is why
the builder is not literally mutation-free.) -/
theorem c8_amended_summary_idempotent (t : GameTracker) :
    processVideoToSummary (processVideoToSummary t).2 = processVideoToSummary t := by
  unfold processVideoToSummary
  simp [closeQuarters_idem]

/-- C9 (amended): the extraction start is `max(0, timestamp − before)` and
the extraction end is that start plus `before + after` (the stream copy
always lasts `before + after` seconds); whenever `before ≤ timestamp` the
clip therefore covers exactly `[timestamp − before, timestamp + after]`, but
for an event earlier than `before` the end exceeds `timestamp + after`. -/
theorem c9_amended_clip_window (ts before after : ℚ) :
    (clipWindow ts before after).1 = max 0 (ts - before) ∧
    (clipWindow ts before after).2 = max 0 (ts - before) + (before + after) ∧
    (before ≤ ts → clipWindow ts before after = (ts - before, ts + after)) := by
  unfold clipWindow clipStart clipDuration
  by_cases h0 : ts - before ≤ 0
  · simp only [if_pos h0]
    refine ⟨(max_eq_left h0).symm, by rw [max_eq_left h0], fun h => ?_⟩
    rw [Prod.mk.injEq]
    constructor <;> linarith
  · simp only [if_neg h0]
    have h1 : 0 ≤ ts - before := le_of_lt (lt_of_not_le h0)
    refine ⟨(max_eq_right h1).symm, by rw [max_eq_right h1], fun h => ?_⟩
    rw [Prod.mk.injEq]
    constructor <;> ring

/-- Witness for the amended C9 statement at a concrete input. -/
theorem c9_amended_witness : clipWindow 40 30 2 = (40 - 30, 40 + 2) :=
  (c9_amended_clip_window 40 30 2).2.2 (by decide)

/-- C9 counterexample: with event timestamp 10, before = 30, after = 2, the
extracted window is [0, 32] — its end is 32, not timestamp + after = 12, so
the claimed window [max(0, ts − before), ts + after] is wrong here. -/
theorem c9_counterexample :
    clipWindow 10 30 2 = (0, 32) ∧ ¬((clipWindow 10 30 2).2 = (10 : ℚ) + 2) := by
  norm_num [clipWindow, clipStart, clipDuration]

end GameTrackerModel
